import Mathlib

/-!
Shallow embedding of the B.C.L. Tracker single-page application
(`src/App.jsx`, bootstrapped by `src/main.jsx`): the session manager
(`onAuthStateChanged` handler), the mutation gateway (`logStrain`,
`deleteStrain`), the form input layer (`handleTerpenesSelect`), and the
view-derivation layer (`myAverageRating`, `filteredStrains`), together
with theorems settling the specification claims about them.

Modelling conventions:
* Firestore document ids are `Nat`, drawn from a freshness counter
  (`nextId`) standing in for the backend's unique random id generator.
* ISO timestamp strings are abstracted to `Nat` instants.
* JS numbers are modelled as exact rationals; `toFixed(1)` is
  round-half-up to one decimal.
* A JS runtime `TypeError` (method call on `undefined`) is `Option.none`;
  fields that a Firestore document may lack are `Option`-valued.
* `Array.prototype.sort` with the comparator `(a, b) => b.rating - a.rating`
  is required by ECMAScript to be a stable sort, hence computes the unique
  stable descending-by-rating reordering; it is embedded as an insertion
  sort, which computes exactly that reordering.
-/

/-- Form-level strain data: the fields assembled in `LogStrainScreen`'s
`formData` and passed to `logStrain`. `userId` and the two timestamps are
stamped by the gateway at write time and are not part of the form payload. -/
structure StrainData where
  strainName : String
  productType : String
  purchasedLocation : String
  cost : String
  effects : List String
  rating : Nat
  brand : String
  type : String
  terpenes : List String
deriving DecidableEq

/-- A document of the private collection
`artifacts/appId/users/userId/strains`, as written by `logStrain`. -/
structure PrivRecord where
  id : Nat
  data : StrainData
  userId : String
  createdAt : Nat
  updatedAt : Nat
deriving DecidableEq

/-- A document of the public collection
`artifacts/appId/public/data/community_strains`, as written by the
creation-time mirror branch of `logStrain`. -/
structure PubRecord where
  id : Nat
  data : StrainData
  originalDocId : Nat
  userId : String
  contributedAt : Nat
deriving DecidableEq

/-- Backend state addressed by the current identity: its private strain
collection, the shared community collection, and a freshness counter
standing in for the backend's unique document-id generator. -/
structure AppState where
  priv : List PrivRecord
  pub : List PubRecord
  nextId : Nat
deriving DecidableEq

/-- Write at an explicit document id, mirroring Firestore `setDoc` with
merge: the document at that id is replaced, or created when absent
(upsert). `logStrain` always sends every field, so the merge amounts to
full replacement of the modelled fields. -/
def upsertPriv : List PrivRecord → PrivRecord → List PrivRecord
  | [], r => [r]
  | x :: xs, r => if x.id = r.id then r :: xs else x :: upsertPriv xs r

/-- `logStrain(strainData, docId)`: rejected synchronously when the db
handle or the identity is absent; otherwise a merge-write of the form
data plus `userId`/`createdAt`/`updatedAt` onto the addressed private
document (an existing id for update, a fresh id for create), and — only
on create — an additional public community document carrying the same
form data, `originalDocId` pointing at the new private id, `userId`,
and `contributedAt`. -/
def logStrain (s : AppState) (dbReady : Bool) (userId : Option String)
    (strainData : StrainData) (docId : Option Nat) (now : Nat) : AppState :=
  match dbReady, userId with
  | false, _ => s
  | true, none => s
  | true, some uid =>
    match docId with
    | some id =>
        { s with priv := upsertPriv s.priv ⟨id, strainData, uid, now, now⟩ }
    | none =>
        let newId := s.nextId
        { priv := s.priv ++ [⟨newId, strainData, uid, now, now⟩],
          pub := s.pub ++ [⟨s.nextId + 1, strainData, newId, uid, now⟩],
          nextId := s.nextId + 2 }

/-- `deleteStrain(docId)`: rejected synchronously when the db handle or
the identity is absent; otherwise removes the addressed document from
the private collection only. -/
def deleteStrain (s : AppState) (dbReady : Bool) (userId : Option String)
    (docId : Nat) : AppState :=
  match dbReady, userId with
  | false, _ => s
  | true, none => s
  | true, some _ => { s with priv := s.priv.filter (fun r => r.id != docId) }

/-- Collection freshness invariant: every stored document id is below the
generator counter, so a freshly generated id collides with nothing. -/
def freshIds (s : AppState) : Prop :=
  (∀ r ∈ s.priv, r.id < s.nextId) ∧ (∀ m ∈ s.pub, m.id < s.nextId)

/-- A strain document as delivered by a collection snapshot and consumed
by `HistoryScreen`/`DashboardScreen`. Fields that a stored document may
lack (arbitrary backend content) are `Option`-valued; `rating` reads as 0
when unset, matching the `s.rating || 0` reads. -/
structure StrainDoc where
  id : Nat
  strainName : String
  rating : Nat
  brand : Option String
  type : Option String
  effects : Option (List String)
  terpenes : Option (List String)
deriving DecidableEq

/-- Character-list core of JS `String.prototype.includes`. -/
def containsSubstrChars : List Char → List Char → Bool
  | _, [] => true
  | [], _ :: _ => false
  | h :: t, n => List.isPrefixOf n (h :: t) || containsSubstrChars t n

/-- JS `hay.toLowerCase().includes(needle.toLowerCase())`:
case-insensitive substring containment, computed on the character
lists (JS `toLowerCase` is the per-character simple lowercase map). -/
def containsSubstrCI (hay needle : String) : Bool :=
  containsSubstrChars (hay.data.map Char.toLower) (needle.data.map Char.toLower)

/-- JS `s.startsWith(p)`, computed on the character lists. -/
def strStartsWith (s p : String) : Bool := List.isPrefixOf p.data s.data

/-- The filter state destructured by `HistoryScreen.filteredStrains`
(the unused panel fields play no role in the predicate). -/
structure Filters where
  rating : Nat
  effects : String
  brand : String
  type : String
  terpene : String
deriving DecidableEq

/-- `rating === 0 || strain.rating >= rating`. -/
def matchesRating (f : Filters) (s : StrainDoc) : Bool :=
  (f.rating == 0) || decide (f.rating ≤ s.rating)

/-- `!effects || strain.effects.includes(effects)`; `none` is the
`TypeError` raised when `strain.effects` is `undefined`. -/
def matchesEffects (f : Filters) (s : StrainDoc) : Option Bool :=
  if f.effects == "" then some true
  else s.effects.map (fun es => es.contains f.effects)

/-- `!brand || strain.brand.toLowerCase().includes(brand.toLowerCase())`;
`none` is the `TypeError` raised when `strain.brand` is `undefined`. -/
def matchesBrand (f : Filters) (s : StrainDoc) : Option Bool :=
  if f.brand == "" then some true
  else s.brand.map (fun b => containsSubstrCI b f.brand)

/-- `!type || strain.type === type` (comparison with `undefined` is just
false, never a `TypeError`). -/
def matchesType (f : Filters) (s : StrainDoc) : Bool :=
  (f.type == "") || (s.type == some f.type)

/-- `!terpene || strain.terpenes.includes(terpene)`; `none` is the
`TypeError` raised when `strain.terpenes` is `undefined`. -/
def matchesTerpene (f : Filters) (s : StrainDoc) : Option Bool :=
  if f.terpene == "" then some true
  else s.terpenes.map (fun ts => ts.contains f.terpene)

/-- `!searchFilter || strain.strainName.toLowerCase().includes(...)`
(`strainName` is a required field, so this read is total). -/
def matchesSearch (q : String) (s : StrainDoc) : Bool :=
  (q == "") || containsSubstrCI s.strainName q

/-- The body of the `filteredStrains` filter callback: all six matches
are computed and AND-combined; a `TypeError` in any of them aborts the
whole evaluation. -/
def matchesStrain (f : Filters) (q : String) (s : StrainDoc) : Option Bool :=
  (matchesEffects f s).bind fun me =>
  (matchesBrand f s).bind fun mb =>
  (matchesTerpene f s).bind fun mt =>
  some (matchesRating f s && me && mb && matchesType f s && mt && matchesSearch q s)

/-- `dataToDisplay.filter(strain => ...)`: keeps the records whose
predicate is true, aborting with `none` as soon as any record's
predicate raises. -/
def filterStrains (f : Filters) (q : String) : List StrainDoc → Option (List StrainDoc)
  | [] => some []
  | s :: rest =>
    (matchesStrain f q s).bind fun m =>
    (filterStrains f q rest).map fun rest' =>
    if m then s :: rest' else rest'

/-- The order induced by the comparator `(a, b) => b.rating - a.rating`:
`a` sorts no later than `b` exactly when the comparator is ≤ 0. -/
def ratingDescOrder (a b : StrainDoc) : Prop := b.rating ≤ a.rating

instance : DecidableRel ratingDescOrder :=
  fun a b => inferInstanceAs (Decidable (b.rating ≤ a.rating))

/-- `.sort((a, b) => b.rating - a.rating)`: the stable descending-by-
rating reordering mandated by ECMAScript, computed as insertion sort. -/
def sortByRatingDesc (l : List StrainDoc) : List StrainDoc :=
  List.insertionSort ratingDescOrder l

/-- `HistoryScreen.filteredStrains`: filter then sort. -/
def filteredStrains (f : Filters) (q : String) (l : List StrainDoc) :
    Option (List StrainDoc) :=
  (filterStrains f q l).map sortByRatingDesc

/-- `userStrains.reduce((sum, s) => sum + (s.rating || 0), 0)`. -/
def ratingTotal (l : List StrainDoc) : ℚ :=
  l.foldl (fun sum s => sum + (s.rating : ℚ)) 0

/-- JS `x.toFixed(1)` on the exact value: round-half-up to one decimal. -/
def toFixed1 (x : ℚ) : ℚ := ((⌊10 * x + 1 / 2⌋ : ℤ) : ℚ) / 10

/-- `DashboardScreen.myAverageRating`: 0 for an empty list, otherwise the
running total divided by the count, to one decimal. -/
def myAverageRating (l : List StrainDoc) : ℚ :=
  if l.length = 0 then 0 else toFixed1 (ratingTotal l / l.length)

/-- Specification-side average (spec §4.4): the arithmetic mean of the
ratings rounded to one decimal, 0 for the empty list. Stated with
`List.sum` over the mapped ratings, to be compared with the reduce-based
`myAverageRating`. -/
def specAverageRating (l : List StrainDoc) : ℚ :=
  if l = [] then 0 else toFixed1 ((l.map fun s => (s.rating : ℚ)).sum / l.length)

/-- Specification-side filter predicate (spec §4.4): the claimed
conjunction of the six per-field conditions, written from the spec's
sentences. -/
def specMatches (f : Filters) (q : String) (s : StrainDoc) : Prop :=
  (f.rating = 0 ∨ f.rating ≤ s.rating) ∧
  (f.effects = "" ∨ ∃ es, s.effects = some es ∧ f.effects ∈ es) ∧
  (f.brand = "" ∨ ∃ b, s.brand = some b ∧ containsSubstrCI b f.brand = true) ∧
  (f.type = "" ∨ s.type = some f.type) ∧
  (f.terpene = "" ∨ ∃ ts, s.terpenes = some ts ∧ f.terpene ∈ ts) ∧
  (q = "" ∨ containsSubstrCI s.strainName q = true)

/-- Session state relevant to role derivation: the resolved identity and
the privileged flag. -/
structure AuthSession where
  userId : Option String
  isAdmin : Bool
deriving DecidableEq

/-- Initial React state: `userId = null`, `isAdmin = false`. -/
def initSession : AuthSession := { userId := none, isAdmin := false }

/-- The `onAuthStateChanged` callback: on a resolved user it stores the
uid and sets the admin flag when the uid starts with the literal
`admin_` marker — and leaves the flag alone otherwise; on sign-out it
clears the uid only. -/
def onAuthStateChanged (s : AuthSession) (user : Option String) : AuthSession :=
  match user with
  | some uid =>
      { userId := some uid,
        isAdmin := if strStartsWith uid "admin_" then true else s.isAdmin }
  | none => { userId := none, isAdmin := s.isAdmin }

/-- The session reached from the initial state after a sequence of auth
events (each event: a resolved uid or a sign-out). -/
def runAuthEvents (events : List (Option String)) : AuthSession :=
  events.foldl onAuthStateChanged initSession

/-- Whether the currently resolved identity carries the `admin_` marker
(the property the claim says is equivalent to the flag). -/
def currentIdPrivileged (s : AuthSession) : Bool :=
  match s.userId with
  | some uid => strStartsWith uid "admin_"
  | none => false

/-- Whether one auth event resolves an `admin_`-marked identity. -/
def eventPrivileged (e : Option String) : Bool :=
  match e with
  | some uid => strStartsWith uid "admin_"
  | none => false

/-- `LogStrainScreen.handleTerpenesSelect`: replace the form's terpene
list with the selection when it has at most 3 entries, otherwise reject
the selection and leave the form unchanged. -/
def handleTerpenesSelect (formData : StrainData) (selectedOptions : List String) :
    StrainData :=
  if selectedOptions.length ≤ 3 then { formData with terpenes := selectedOptions }
  else formData

/-- `LogStrainScreen`'s initial `formData` for a new entry. -/
def initialFormData : StrainData :=
  { strainName := "", productType := "Flower", purchasedLocation := "", cost := "",
    effects := [], rating := 0, brand := "", type := "Hybrid", terpenes := [] }

/-- Concrete form payload used by witnesses. -/
def sampleData : StrainData :=
  { strainName := "Blue Dream", productType := "Flower", purchasedLocation := "",
    cost := "", effects := ["Relaxing"], rating := 4, brand := "Cresco",
    type := "Indica", terpenes := ["Myrcene"] }

/-- Empty backend state. -/
def emptyState : AppState := { priv := [], pub := [], nextId := 0 }

/-- State after one create at instant 1 (private id 0, mirror id 1). -/
def stateAfterCreate : AppState :=
  logStrain emptyState true (some "user_1") sampleData none 1

/-- State after then updating private document 0 at instant 2. -/
def stateAfterUpdate : AppState :=
  logStrain stateAfterCreate true (some "user_1") sampleData (some 0) 2

/-- Concrete snapshot documents used by witnesses. -/
def docBlueDream : StrainDoc :=
  { id := 1, strainName := "Blue Dream", rating := 4, brand := some "Cresco",
    type := some "Indica", effects := some ["Relaxing"], terpenes := some ["Myrcene"] }

/-- A second concrete snapshot document. -/
def docOGKush : StrainDoc :=
  { id := 2, strainName := "OG Kush", rating := 2, brand := some "Verano",
    type := some "Indica", effects := some [], terpenes := some [] }

/-- A document lacking the optional fields, as the unguarded filter reads
may encounter. -/
def docNoBrand : StrainDoc :=
  { id := 3, strainName := "Mystery", rating := 1, brand := none,
    type := none, effects := none, terpenes := none }

/-- Filter state: minimum rating 3, type Indica. -/
def indicaFilter : Filters :=
  { rating := 3, effects := "", brand := "", type := "Indica", terpene := "" }

/-- Filter state with nothing active. -/
def emptyFilter : Filters :=
  { rating := 0, effects := "", brand := "", type := "", terpene := "" }

/-- Filter state with only the brand filter active. -/
def brandFilter : Filters :=
  { rating := 0, effects := "", brand := "Cresco", type := "", terpene := "" }

/-! ## Helper lemmas -/

/-- After an upsert at `r.id`, looking the id up finds exactly the
written record. -/
theorem find?_upsertPriv (l : List PrivRecord) (r : PrivRecord) :
    (upsertPriv l r).find? (fun x => x.id == r.id) = some r := by
  induction l with
  | nil => simp [upsertPriv]
  | cons x xs ih =>
    unfold upsertPriv
    by_cases h : x.id = r.id
    · rw [if_pos h]
      simp
    · rw [if_neg h]
      have hb : (x.id == r.id) = false := by simpa using h
      simp [List.find?_cons, hb, ih]

/-! ## Claim C1 -/

/-- Claim C1: a create (`logStrain` with no `docId`) under a resolved
identity appends exactly one private record carrying the input's field
values, with a fresh id, and exactly one public mirror record carrying
`originalDocId` equal to that fresh private id and a `contributedAt`
timestamp, also under a fresh public id. -/
theorem create_writes_one_private_and_one_mirror
    (s : AppState) (uid : String) (d : StrainData) (now : Nat)
    (hw : freshIds s) :
    ∃ newRec : PrivRecord, ∃ mirror : PubRecord,
      (logStrain s true (some uid) d none now).priv = s.priv ++ [newRec] ∧
      newRec.data = d ∧ newRec.userId = uid ∧
      (∀ r ∈ s.priv, r.id ≠ newRec.id) ∧
      (logStrain s true (some uid) d none now).pub = s.pub ++ [mirror] ∧
      mirror.data = d ∧ mirror.originalDocId = newRec.id ∧
      mirror.contributedAt = now ∧
      (∀ m ∈ s.pub, m.id ≠ mirror.id) := by
  refine ⟨⟨s.nextId, d, uid, now, now⟩, ⟨s.nextId + 1, d, s.nextId, uid, now⟩,
    rfl, rfl, rfl, ?_, rfl, rfl, rfl, rfl, ?_⟩
  · intro r hr
    have h1 := hw.1 r hr
    show r.id ≠ s.nextId
    omega
  · intro m hm
    have h2 := hw.2 m hm
    show m.id ≠ s.nextId + 1
    omega

/-- Witness for C1 at the empty state: the freshness hypothesis holds
there and the conclusion follows by the theorem. -/
theorem create_writes_one_private_and_one_mirror_witness :
    freshIds emptyState ∧
    (∃ newRec : PrivRecord, ∃ mirror : PubRecord,
      (logStrain emptyState true (some "user_1") sampleData none 1).priv =
        emptyState.priv ++ [newRec] ∧
      newRec.data = sampleData ∧ newRec.userId = "user_1" ∧
      (∀ r ∈ emptyState.priv, r.id ≠ newRec.id) ∧
      (logStrain emptyState true (some "user_1") sampleData none 1).pub =
        emptyState.pub ++ [mirror] ∧
      mirror.data = sampleData ∧ mirror.originalDocId = newRec.id ∧
      mirror.contributedAt = 1 ∧
      (∀ m ∈ emptyState.pub, m.id ≠ mirror.id)) :=
  ⟨by simp [freshIds, emptyState],
   create_writes_one_private_and_one_mirror emptyState "user_1" sampleData 1
     (by simp [freshIds, emptyState])⟩

/-! ## Claim C2 -/

/-- Claim C2 counterexample: after creating document 0 at instant 1 and
updating it at instant 2, its stored `createdAt` is no longer the value
it had before the update — `logStrain` stamps `createdAt` afresh on
every write, so it is not preserved as the claim states. -/
theorem update_refreshes_createdAt_cex :
    ((stateAfterUpdate.priv.find? (fun r => r.id == 0)).map PrivRecord.createdAt) ≠
      ((stateAfterCreate.priv.find? (fun r => r.id == 0)).map PrivRecord.createdAt) := by
  decide

/-- Claim C2 (amended): an update with an input that omits `userId`
(form payloads never carry one) stamps the record's `userId` with the
current identity — preserving it, since the private collection is scoped
to that identity — and refreshes `updatedAt` to the write time; but
`createdAt` is refreshed to the write time as well, not left unchanged.
The public collection is untouched. -/
theorem update_stamps_user_and_refreshes_timestamps
    (s : AppState) (uid : String) (d : StrainData) (id now : Nat) :
    ∃ r' : PrivRecord,
      (logStrain s true (some uid) d (some id) now).priv.find?
        (fun x => x.id == id) = some r' ∧
      r'.userId = uid ∧ r'.updatedAt = now ∧ r'.createdAt = now ∧
      (logStrain s true (some uid) d (some id) now).pub = s.pub := by
  exact ⟨⟨id, d, uid, now, now⟩, find?_upsertPriv s.priv ⟨id, d, uid, now, now⟩,
    rfl, rfl, rfl, rfl⟩

/-! ## Claim C5 -/

/-- Claim C5: an update (`logStrain` with an existing `docId`) leaves the
public community collection exactly as it was — no new mirror, no
mutated mirror — and a delete leaves the public collection exactly as it
was while removing only the addressed record from the private
collection. -/
theorem update_delete_leave_public_unchanged
    (s : AppState) (db : Bool) (uid : Option String) (d : StrainData)
    (id now : Nat) (u : String) (did : Nat) :
    (logStrain s db uid d (some id) now).pub = s.pub ∧
    (deleteStrain s db uid did).pub = s.pub ∧
    (deleteStrain s true (some u) did).priv =
      s.priv.filter (fun r => r.id != did) := by
  refine ⟨?_, ?_, rfl⟩
  · cases db
    · rfl
    · cases uid <;> rfl
  · cases db
    · rfl
    · cases uid <;> rfl

/-! ## Claim C6 -/

/-- Claim C6: with a null identity, or with the backend handle absent,
`logStrain` (create or update) and `deleteStrain` return synchronously
with the state — both collections — completely unchanged. -/
theorem null_identity_rejects_all_writes
    (s : AppState) (db : Bool) (uid : Option String) (d : StrainData)
    (docId : Option Nat) (now did : Nat) :
    logStrain s db none d docId now = s ∧
    logStrain s false uid d docId now = s ∧
    deleteStrain s db none did = s ∧
    deleteStrain s false uid did = s := by
  refine ⟨?_, rfl, ?_, rfl⟩
  · cases db <;> rfl
  · cases db <;> rfl

/-! ## Claim C3 -/

/-- The reduce-style running total equals the sum of the mapped ratings. -/
theorem ratingTotal_eq_sum (l : List StrainDoc) :
    ratingTotal l = (l.map fun s => (s.rating : ℚ)).sum := by
  suffices h : ∀ (l : List StrainDoc) (a : ℚ),
      List.foldl (fun sum s => sum + (s.rating : ℚ)) a l =
        a + (l.map fun s => (s.rating : ℚ)).sum by
    simpa [ratingTotal] using h l 0
  intro l
  induction l with
  | nil => intro a; simp
  | cons x xs ih =>
    intro a
    rw [List.foldl_cons, ih, List.map_cons, List.sum_cons]
    ring

/-- Claim C3: `myAverageRating` of the empty list is 0 (not an error
value), and on any list it equals the arithmetic mean of the ratings
rounded to one decimal, i.e. the specification-side average. -/
theorem average_is_rounded_mean :
    myAverageRating [] = 0 ∧
    ∀ l : List StrainDoc, myAverageRating l = specAverageRating l := by
  refine ⟨rfl, fun l => ?_⟩
  unfold myAverageRating specAverageRating
  rcases l with _ | ⟨x, xs⟩
  · rfl
  · rw [if_neg (by simp), if_neg (by simp), ratingTotal_eq_sum]

/-! ## Claim C8 -/

/-- Claim C8: a terpene selection of more than 3 entries is rejected and
the form's terpene list is unchanged; a selection of at most 3 entries
replaces the list; the handler preserves the at-most-3 bound, so any
entry built from the new-entry form by a sequence of terpene selections
is submitted with at most 3 terpenes. -/
theorem terpene_selection_capped
    (form : StrainData) (sel : List String) (sels : List (List String)) :
    (3 < sel.length → handleTerpenesSelect form sel = form) ∧
    (sel.length ≤ 3 → (handleTerpenesSelect form sel).terpenes = sel) ∧
    (form.terpenes.length ≤ 3 →
      (handleTerpenesSelect form sel).terpenes.length ≤ 3) ∧
    (List.foldl handleTerpenesSelect initialFormData sels).terpenes.length ≤ 3 := by
  have hstep : ∀ (fm : StrainData) (a : List String), fm.terpenes.length ≤ 3 →
      (handleTerpenesSelect fm a).terpenes.length ≤ 3 := by
    intro fm a h
    unfold handleTerpenesSelect
    split
    · next hc => exact hc
    · exact h
  refine ⟨?_, ?_, hstep form sel, ?_⟩
  · intro h
    unfold handleTerpenesSelect
    rw [if_neg (by omega)]
  · intro h
    unfold handleTerpenesSelect
    rw [if_pos h]
  · have hinv : ∀ (ss : List (List String)) (fm : StrainData),
        fm.terpenes.length ≤ 3 →
        (List.foldl handleTerpenesSelect fm ss).terpenes.length ≤ 3 := by
      intro ss
      induction ss with
      | nil => intro fm h; simpa using h
      | cons a as ih =>
        intro fm h
        rw [List.foldl_cons]
        exact ih _ (hstep fm a h)
    exact hinv sels initialFormData (by simp [initialFormData])

/-- Witness for C8: a four-entry selection is rejected on the initial
form, and a one-entry selection replaces its terpene list. -/
theorem terpene_selection_capped_witness :
    handleTerpenesSelect initialFormData
      ["Myrcene", "Pinene", "Limonene", "Linalool"] = initialFormData ∧
    (handleTerpenesSelect initialFormData ["Myrcene"]).terpenes = ["Myrcene"] :=
  ⟨(terpene_selection_capped initialFormData
      ["Myrcene", "Pinene", "Limonene", "Linalool"] []).1 (by decide),
   (terpene_selection_capped initialFormData ["Myrcene"] []).2.1 (by decide)⟩

/-! ## Claim C9 -/

/-- Claim C9 counterexample: after the identity sequence `admin_alice`
then `bob_2`, the session is still flagged privileged although the
current identity does not start with `admin_` — the callback sets the
flag but never clears it, so the claimed equivalence fails across
identity changes. -/
theorem admin_flag_sticky_cex :
    ¬ ((runAuthEvents [some "admin_alice", some "bob_2"]).isAdmin =
        currentIdPrivileged (runAuthEvents [some "admin_alice", some "bob_2"])) := by
  decide

/-- Claim C9 (amended): the session is flagged privileged iff some
resolved identity of the session so far — current or earlier — starts
with the literal `admin_` marker: the flag latches on the first such
identity and is never cleared. In particular the forward direction of
the original claim still holds: whenever the current identity carries
the marker, the session is flagged privileged. -/
theorem admin_flag_latches_any_admin_identity (events : List (Option String)) :
    (runAuthEvents events).isAdmin = events.any eventPrivileged ∧
    (currentIdPrivileged (runAuthEvents events) = true →
      (runAuthEvents events).isAdmin = true) := by
  have aux : ∀ (es : List (Option String)) (s : AuthSession),
      ((es.foldl onAuthStateChanged s).isAdmin =
        (s.isAdmin || es.any eventPrivileged)) ∧
      ((currentIdPrivileged s = true → s.isAdmin = true) →
        currentIdPrivileged (es.foldl onAuthStateChanged s) = true →
        (es.foldl onAuthStateChanged s).isAdmin = true) := by
    intro es
    induction es with
    | nil =>
      intro s
      exact ⟨by simp, fun h => h⟩
    | cons e es' ih =>
      intro s
      rw [List.foldl_cons, List.any_cons]
      constructor
      · rw [(ih (onAuthStateChanged s e)).1]
        cases e with
        | none => simp [onAuthStateChanged, eventPrivileged]
        | some uid =>
          cases huid : strStartsWith uid "admin_" <;>
            simp [onAuthStateChanged, eventPrivileged, huid]
      · intro hinv
        apply (ih (onAuthStateChanged s e)).2
        intro hcur
        cases e with
        | none => simp [onAuthStateChanged, currentIdPrivileged] at hcur
        | some uid =>
          simp only [onAuthStateChanged, currentIdPrivileged,
            Option.some.injEq] at hcur ⊢
          simp [hcur]
  refine ⟨?_, (aux events initSession).2 ?_⟩
  · rw [runAuthEvents, (aux events initSession).1]
    simp [initSession]
  · intro h
    simp [initSession, currentIdPrivileged] at h

/-- Witness for C9 (amended) at a concrete one-event session. -/
theorem admin_flag_latches_witness :
    (runAuthEvents [some "admin_root"]).isAdmin =
      [some "admin_root"].any eventPrivileged ∧
    (currentIdPrivileged (runAuthEvents [some "admin_root"]) = true →
      (runAuthEvents [some "admin_root"]).isAdmin = true) :=
  admin_flag_latches_any_admin_identity [some "admin_root"]

/-! ## Filtering helper lemmas -/

/-- Characterization of a non-crashing effects-filter evaluation. -/
theorem matchesEffects_true_iff {f : Filters} {s : StrainDoc} {b : Bool}
    (h : matchesEffects f s = some b) :
    b = true ↔ (f.effects = "" ∨ ∃ es, s.effects = some es ∧ f.effects ∈ es) := by
  unfold matchesEffects at h
  split at h
  · next hc =>
    have hfe : f.effects = "" := by simpa using hc
    simp only [Option.some.injEq] at h
    subst h
    simp [hfe]
  · next hc =>
    have hfe : ¬ f.effects = "" := by simpa using hc
    cases hse : s.effects with
    | none => rw [hse] at h; cases h
    | some es =>
      rw [hse] at h
      simp only [Option.map_some', Option.some.injEq] at h
      subst h
      simp [hse, hfe]

/-- Characterization of a non-crashing brand-filter evaluation. -/
theorem matchesBrand_true_iff {f : Filters} {s : StrainDoc} {b : Bool}
    (h : matchesBrand f s = some b) :
    b = true ↔
      (f.brand = "" ∨ ∃ bd, s.brand = some bd ∧ containsSubstrCI bd f.brand = true) := by
  unfold matchesBrand at h
  split at h
  · next hc =>
    have hfb : f.brand = "" := by simpa using hc
    simp only [Option.some.injEq] at h
    subst h
    simp [hfb]
  · next hc =>
    have hfb : ¬ f.brand = "" := by simpa using hc
    cases hsb : s.brand with
    | none => rw [hsb] at h; cases h
    | some bd =>
      rw [hsb] at h
      simp only [Option.map_some', Option.some.injEq] at h
      subst h
      simp [hsb, hfb]

/-- Characterization of a non-crashing terpene-filter evaluation. -/
theorem matchesTerpene_true_iff {f : Filters} {s : StrainDoc} {b : Bool}
    (h : matchesTerpene f s = some b) :
    b = true ↔ (f.terpene = "" ∨ ∃ ts, s.terpenes = some ts ∧ f.terpene ∈ ts) := by
  unfold matchesTerpene at h
  split at h
  · next hc =>
    have hft : f.terpene = "" := by simpa using hc
    simp only [Option.some.injEq] at h
    subst h
    simp [hft]
  · next hc =>
    have hft : ¬ f.terpene = "" := by simpa using hc
    cases hst : s.terpenes with
    | none => rw [hst] at h; cases h
    | some ts =>
      rw [hst] at h
      simp only [Option.map_some', Option.some.injEq] at h
      subst h
      simp [hst, hft]

/-- Characterization of the rating-filter match. -/
theorem matchesRating_true_iff (f : Filters) (s : StrainDoc) :
    matchesRating f s = true ↔ (f.rating = 0 ∨ f.rating ≤ s.rating) := by
  simp [matchesRating]

/-- Characterization of the type-filter match. -/
theorem matchesType_true_iff (f : Filters) (s : StrainDoc) :
    matchesType f s = true ↔ (f.type = "" ∨ s.type = some f.type) := by
  simp [matchesType]

/-- Characterization of the free-text search match. -/
theorem matchesSearch_true_iff (q : String) (s : StrainDoc) :
    matchesSearch q s = true ↔ (q = "" ∨ containsSubstrCI s.strainName q = true) := by
  simp [matchesSearch]

/-- A non-crashing per-record evaluation is true exactly when the
specification-side conjunction holds. -/
theorem matchesStrain_true_iff {f : Filters} {q : String} {s : StrainDoc} {b : Bool}
    (h : matchesStrain f q s = some b) : b = true ↔ specMatches f q s := by
  unfold matchesStrain at h
  rw [Option.bind_eq_some] at h
  obtain ⟨me, he, h⟩ := h
  rw [Option.bind_eq_some] at h
  obtain ⟨mb, hb, h⟩ := h
  rw [Option.bind_eq_some] at h
  obtain ⟨mt, ht, h⟩ := h
  simp only [Option.some.injEq] at h
  subst h
  unfold specMatches
  simp only [Bool.and_eq_true]
  rw [matchesRating_true_iff, matchesType_true_iff, matchesSearch_true_iff,
    matchesEffects_true_iff he, matchesBrand_true_iff hb, matchesTerpene_true_iff ht]
  simp only [and_assoc]

/-- Membership in a successful filter pass: exactly the input records
whose predicate evaluates to true. -/
theorem mem_filterStrains (f : Filters) (q : String) :
    ∀ (l out : List StrainDoc), filterStrains f q l = some out →
      ∀ s : StrainDoc, s ∈ out ↔ (s ∈ l ∧ matchesStrain f q s = some true) := by
  intro l
  induction l with
  | nil =>
    intro out h s
    simp only [filterStrains, Option.some.injEq] at h
    subst h
    simp
  | cons x rest ih =>
    intro out h s
    simp only [filterStrains] at h
    rw [Option.bind_eq_some] at h
    obtain ⟨m, hm, h⟩ := h
    rw [Option.map_eq_some'] at h
    obtain ⟨rest', hrest, h⟩ := h
    subst h
    cases m with
    | true =>
      rw [if_pos rfl, List.mem_cons, List.mem_cons, ih rest' hrest s]
      constructor
      · rintro (rfl | ⟨hsr, hms⟩)
        · exact ⟨Or.inl rfl, hm⟩
        · exact ⟨Or.inr hsr, hms⟩
      · rintro ⟨rfl | hsr, hms⟩
        · exact Or.inl rfl
        · exact Or.inr ⟨hsr, hms⟩
    | false =>
      rw [if_neg (by simp), ih rest' hrest s, List.mem_cons]
      constructor
      · rintro ⟨hsr, hms⟩
        exact ⟨Or.inr hsr, hms⟩
      · rintro ⟨rfl | hsr, hms⟩
        · exact absurd (hm.symm.trans hms) (by simp)
        · exact ⟨hsr, hms⟩

/-- In a successful filter pass, every input record's predicate
evaluated without crashing. -/
theorem matchesStrain_isSome_of_mem (f : Filters) (q : String) :
    ∀ (l fl : List StrainDoc), filterStrains f q l = some fl →
      ∀ s ∈ l, ∃ b, matchesStrain f q s = some b := by
  intro l
  induction l with
  | nil =>
    intro fl h s hs
    exact absurd hs (by simp)
  | cons x rest ih =>
    intro fl h s hs
    simp only [filterStrains] at h
    rw [Option.bind_eq_some] at h
    obtain ⟨m, hm, h⟩ := h
    rw [Option.map_eq_some'] at h
    obtain ⟨rest', hrest, -⟩ := h
    rcases List.mem_cons.mp hs with rfl | hs'
    · exact ⟨m, hm⟩
    · exact ih rest' hrest s hs'

/-- The sort step yields a list that is pairwise descending by rating. -/
theorem sorted_sortByRatingDesc (l : List StrainDoc) :
    List.Pairwise ratingDescOrder (sortByRatingDesc l) := by
  haveI : IsTotal StrainDoc ratingDescOrder :=
    ⟨fun a b => Nat.le_total b.rating a.rating⟩
  haveI : IsTrans StrainDoc ratingDescOrder :=
    ⟨fun a b c hab hbc => Nat.le_trans hbc hab⟩
  exact List.sorted_insertionSort ratingDescOrder l

/-- The sort step permutes its input. -/
theorem perm_sortByRatingDesc (l : List StrainDoc) :
    (sortByRatingDesc l).Perm l :=
  List.perm_insertionSort ratingDescOrder l

/-- Inserting a record moves it past strictly higher ratings only, so the
sub-list of records at any fixed rating gains the record at its front
exactly when the record has that rating. -/
theorem filter_orderedInsert_rating (x : StrainDoc) (r : Nat) :
    ∀ m : List StrainDoc,
      (List.orderedInsert ratingDescOrder x m).filter (fun s => s.rating == r) =
        if x.rating == r then x :: m.filter (fun s => s.rating == r)
        else m.filter (fun s => s.rating == r) := by
  intro m
  induction m with
  | nil =>
    cases hx : x.rating == r <;> simp [List.orderedInsert, hx]
  | cons y ys ih =>
    rw [List.orderedInsert]
    by_cases hle : ratingDescOrder x y
    · rw [if_pos hle]
      cases hx : x.rating == r <;> simp [List.filter_cons, hx]
    · rw [if_neg hle]
      have hyx : x.rating < y.rating := Nat.lt_of_not_le hle
      by_cases hx : x.rating = r
      · have hy : (y.rating == r) = false := by
          simp only [beq_eq_false_iff_ne, ne_eq]
          omega
        have hx' : (x.rating == r) = true := by simpa using hx
        simp [List.filter_cons, hy, ih, hx']
      · have hx' : (x.rating == r) = false := by simpa using hx
        simp [List.filter_cons, ih, hx']

/-- The sort is stable: records at any fixed rating keep their relative
input order, so the ordering depends on `rating` alone (no secondary
tie-break key). -/
theorem filter_sortByRatingDesc (l : List StrainDoc) (r : Nat) :
    (sortByRatingDesc l).filter (fun s => s.rating == r) =
      l.filter (fun s => s.rating == r) := by
  induction l with
  | nil => rfl
  | cons x xs ih =>
    simp only [sortByRatingDesc] at ih ⊢
    rw [List.insertionSort, filter_orderedInsert_rating]
    cases hx : x.rating == r <;> simp [List.filter_cons, hx, ih]

/-! ## Claim C4 -/

/-- Claim C4: whenever the filter pipeline evaluates without a crash, a
record of the input list appears in the filtered result iff ALL of the
six conditions hold — rating filter 0 or rating at least the filter's,
effects filter empty or tag contained, brand filter empty or
case-insensitive substring of the brand, type filter empty or exact
type equality, terpene filter empty or tag contained, search empty or
case-insensitive substring of the strain name — AND-combined with no OR
across filter fields. -/
theorem filtered_mem_iff_all_predicates
    (f : Filters) (q : String) (l out : List StrainDoc) (s : StrainDoc)
    (hout : filteredStrains f q l = some out) (hs : s ∈ l) :
    s ∈ out ↔ specMatches f q s := by
  unfold filteredStrains at hout
  rw [Option.map_eq_some'] at hout
  obtain ⟨fl, hfl, hsort⟩ := hout
  subst hsort
  rw [(perm_sortByRatingDesc fl).mem_iff, mem_filterStrains f q l fl hfl s]
  constructor
  · rintro ⟨-, hm⟩
    exact (matchesStrain_true_iff hm).mp rfl
  · intro hspec
    obtain ⟨b, hb⟩ := matchesStrain_isSome_of_mem f q l fl hfl s hs
    have hbt : b = true := (matchesStrain_true_iff hb).mpr hspec
    refine ⟨hs, ?_⟩
    rw [hb, hbt]

/-- Witness for C4 on a concrete two-record list with the filter
rating ≥ 3 and type Indica: the pipeline evaluates, and the theorem
applies to the matching record. -/
theorem filtered_mem_iff_all_predicates_witness :
    filteredStrains indicaFilter "" [docBlueDream, docOGKush] = some [docBlueDream] ∧
    docBlueDream ∈ [docBlueDream, docOGKush] ∧
    (docBlueDream ∈ [docBlueDream] ↔ specMatches indicaFilter "" docBlueDream) :=
  ⟨by decide, by decide,
   filtered_mem_iff_all_predicates indicaFilter "" [docBlueDream, docOGKush]
     [docBlueDream] docBlueDream (by decide) (by decide)⟩

/-! ## Claim C7 -/

/-- Claim C7: whenever the filter pass succeeds, the filtered result is
its descending-by-rating sort: every pair of adjacent records (a, b)
satisfies a.rating ≥ b.rating, and no secondary tie-break key is
applied — the records at any fixed rating keep exactly their relative
order from the filtered input. -/
theorem filtered_sorted_desc_no_tiebreak
    (f : Filters) (q : String) (l fl : List StrainDoc)
    (h : filterStrains f q l = some fl) :
    filteredStrains f q l = some (sortByRatingDesc fl) ∧
    List.Chain' (fun a b => b.rating ≤ a.rating) (sortByRatingDesc fl) ∧
    ∀ r : Nat, (sortByRatingDesc fl).filter (fun s => s.rating == r) =
      fl.filter (fun s => s.rating == r) := by
  refine ⟨?_, ?_, fun r => filter_sortByRatingDesc fl r⟩
  · rw [filteredStrains, h]
    rfl
  · exact (sorted_sortByRatingDesc fl).chain'

/-- Witness for C7 on a concrete list given in ascending order: the
filter pass succeeds and the theorem applies. -/
theorem filtered_sorted_desc_no_tiebreak_witness :
    filterStrains emptyFilter "" [docOGKush, docBlueDream] =
      some [docOGKush, docBlueDream] ∧
    (filteredStrains emptyFilter "" [docOGKush, docBlueDream] =
       some (sortByRatingDesc [docOGKush, docBlueDream]) ∧
     List.Chain' (fun a b => b.rating ≤ a.rating)
       (sortByRatingDesc [docOGKush, docBlueDream]) ∧
     ∀ r : Nat, (sortByRatingDesc [docOGKush, docBlueDream]).filter
         (fun s => s.rating == r) =
       [docOGKush, docBlueDream].filter (fun s => s.rating == r)) :=
  ⟨by decide,
   filtered_sorted_desc_no_tiebreak emptyFilter "" [docOGKush, docBlueDream]
     [docOGKush, docBlueDream] (by decide)⟩

/-! ## Claim C10 -/

/-- A non-crashing effects match needs the effects array exactly when
the effects filter is active. -/
theorem matchesEffects_isSome_iff (f : Filters) (s : StrainDoc) :
    (matchesEffects f s).isSome = true ↔
      (f.effects ≠ "" → s.effects.isSome = true) := by
  unfold matchesEffects
  split
  · next hc =>
    have hfe : f.effects = "" := by simpa using hc
    simp [hfe]
  · next hc =>
    have hfe : f.effects ≠ "" := by simpa using hc
    simp [Option.isSome_map', hfe]

/-- A non-crashing brand match needs the brand string exactly when the
brand filter is active. -/
theorem matchesBrand_isSome_iff (f : Filters) (s : StrainDoc) :
    (matchesBrand f s).isSome = true ↔
      (f.brand ≠ "" → s.brand.isSome = true) := by
  unfold matchesBrand
  split
  · next hc =>
    have hfb : f.brand = "" := by simpa using hc
    simp [hfb]
  · next hc =>
    have hfb : f.brand ≠ "" := by simpa using hc
    simp [Option.isSome_map', hfb]

/-- A non-crashing terpene match needs the terpenes array exactly when
the terpene filter is active. -/
theorem matchesTerpene_isSome_iff (f : Filters) (s : StrainDoc) :
    (matchesTerpene f s).isSome = true ↔
      (f.terpene ≠ "" → s.terpenes.isSome = true) := by
  unfold matchesTerpene
  split
  · next hc =>
    have hft : f.terpene = "" := by simpa using hc
    simp [hft]
  · next hc =>
    have hft : f.terpene ≠ "" := by simpa using hc
    simp [Option.isSome_map', hft]

/-- A record's predicate evaluates without crashing iff each optional
field demanded by an active filter is present. -/
theorem matchesStrain_isSome_iff (f : Filters) (q : String) (s : StrainDoc) :
    (matchesStrain f q s).isSome = true ↔
      ((f.effects ≠ "" → s.effects.isSome = true) ∧
       (f.brand ≠ "" → s.brand.isSome = true) ∧
       (f.terpene ≠ "" → s.terpenes.isSome = true)) := by
  rw [← matchesEffects_isSome_iff f s, ← matchesBrand_isSome_iff f s,
    ← matchesTerpene_isSome_iff f s]
  unfold matchesStrain
  cases matchesEffects f s <;> cases matchesBrand f s <;>
    cases matchesTerpene f s <;> simp

/-- The filter pass succeeds iff every record's predicate evaluates
without crashing. -/
theorem filterStrains_isSome_iff (f : Filters) (q : String) :
    ∀ l : List StrainDoc, (filterStrains f q l).isSome = true ↔
      ∀ s ∈ l, (matchesStrain f q s).isSome = true := by
  intro l
  induction l with
  | nil => simp [filterStrains]
  | cons x rest ih =>
    simp only [filterStrains]
    rw [List.forall_mem_cons]
    cases hm : matchesStrain f q x with
    | none => simp [hm]
    | some m =>
      cases hr : filterStrains f q rest with
      | none =>
        rw [hr] at ih
        simp only [Option.isSome_none, Bool.false_eq_true, false_iff] at ih
        simp [hm, hr, ih]
      | some rest' =>
        rw [hr] at ih
        simp only [Option.isSome_some, true_iff] at ih
        exact iff_of_true rfl ⟨rfl, ih⟩

/-- Claim C10: the history filtering pipeline is total precisely under
the precondition that every input record carries a brand string, an
effects array and a terpenes array whenever the corresponding filter is
active; in particular a record with an absent brand under a non-empty
brand filter makes the whole evaluation fail (the unguarded
`strain.brand.toLowerCase()` has no fallback), and likewise for
effects/terpenes. -/
theorem filtering_total_iff_fields_present
    (f : Filters) (q : String) (l : List StrainDoc) :
    (filteredStrains f q l).isSome = true ↔
      ∀ s ∈ l, (f.effects ≠ "" → s.effects.isSome = true) ∧
               (f.brand ≠ "" → s.brand.isSome = true) ∧
               (f.terpene ≠ "" → s.terpenes.isSome = true) := by
  rw [filteredStrains, Option.isSome_map', filterStrains_isSome_iff f q l]
  exact forall_congr' fun s => forall_congr' fun hs => matchesStrain_isSome_iff f q s

/-- Witness for C10: with the brand filter active and a record lacking
the brand field, both sides of the equivalence are false at this
concrete instance — the pipeline crashes. -/
theorem filtering_total_iff_fields_present_witness :
    (filteredStrains brandFilter "" [docNoBrand]).isSome = true ↔
      ∀ s ∈ [docNoBrand],
        (brandFilter.effects ≠ "" → s.effects.isSome = true) ∧
        (brandFilter.brand ≠ "" → s.brand.isSome = true) ∧
        (brandFilter.terpene ≠ "" → s.terpenes.isSome = true) :=
  filtering_total_iff_fields_present brandFilter "" [docNoBrand]
